import Mathlib

/-!
Verification development for the tfq0seo repository.

Each component named in the claims is given a shallow embedding:

* `src/tfq0seo/core/crawler.py` — `Crawler` (URL normalization, robots.txt
  gate, page fetching, BFS crawl loop);
* `src/tfq0seo/core/app.py` — `SEOAnalyzer.analyze_page` and
  `SEOAnalyzer.generate_site_report` (orchestrator);
* `src/tfq0seo/core/report_generator.py` —
  `EnhancedReportGenerator._aggregate_similar_issues`;
* `src/src/utils/cache_manager.py` — `CacheManager` (memory cache path).

External library calls (HTTP client, `urllib.parse.urljoin`, `validators.url`,
`re.search`, robots.txt parsing) are modelled as components of a `World`
record: a fixed, deterministic oracle for one crawl session.  The asyncio
batch (`asyncio.gather`) is linearized: `Crawler.fetch_page` performs its
visited-set check-and-insert before its first suspension point, the failed /
visited sets are order-insensitive, and the result list is rebuilt in batch
order by `zip(batch, results)`, so a sequential fold over the batch is a
faithful linearization of every observable the theorems below mention.
-/

namespace Tfq0seo

/-! ## URLs

A parsed URL, mirroring the 6-tuple of `urllib.parse.urlparse` /
`urlunparse`: (scheme, netloc, path, params, query, fragment). -/

structure Url where
  scheme : String
  netloc : String
  path : String
  params : String
  query : String
  fragment : String
deriving DecidableEq, Repr

/-- Python `s.rstrip('/')`: drop every trailing `'/'` character. -/
def rstripSlash (s : String) : String :=
  ⟨(s.data.reverse.dropWhile (· = '/')).reverse⟩

/-- Python `s.lower()`, character by character. -/
def strLower (s : String) : String :=
  ⟨s.data.map Char.toLower⟩

/-- Componentwise lowercasing.  `Crawler.normalize_url` runs
`urlparse(url.lower())`; lowercasing the URL string and then parsing equals
parsing and then lowercasing each component, because the delimiters
recognised by `urlparse` are non-letters. -/
def lowerUrl (u : Url) : Url :=
  ⟨strLower u.scheme, strLower u.netloc, strLower u.path,
   strLower u.params, strLower u.query, strLower u.fragment⟩

/-- `Crawler.normalize_url` (crawler.py lines 66-78): lowercase the whole
URL, strip trailing slashes from the path (empty path becomes `"/"`, the
Python `or '/'`), and drop the fragment. -/
def normalize_url (u : Url) : Url :=
  let p := lowerUrl u
  { scheme := p.scheme
    netloc := p.netloc
    path := if rstripSlash p.path = "" then "/" else rstripSlash p.path
    params := p.params
    query := p.query
    fragment := "" }

/-! ## Crawler configuration and external world -/

/-- The slice of the crawler configuration read by the modelled code paths
(crawler.py lines 38-48), with the source's defaults. -/
structure CrawlerConfig where
  max_concurrent : Nat := 20
  max_pages : Nat := 500
  max_depth : Nat := 5
  allowed_domains : List String := []
  excluded_patterns : List String := []
  respect_robots_txt : Bool := true
deriving Repr

/-- Successful HTTP response as observed by `Crawler.fetch_page`: the
post-redirect URL (`response.url`), the status, and the hrefs of the parsed
document (the `soup`'s `<a>`/`<link>` href attributes, in document order). -/
structure FetchOk where
  finalUrl : Url
  status : Nat
  hrefs : List String
deriving DecidableEq, Repr

/-- Deterministic per-session oracle for all library/network calls:
`fetch` is `session.get` (errors model timeouts and raised exceptions),
`robotsTxt url` is the fetched-and-parsed robots.txt for a robots URL
(`none` = unavailable, i.e. the fail-open path; `some f` = the
`RobotFileParser.can_fetch` predicate), `join` is `urllib.parse.urljoin`,
`libValid` is `validators.url`, and `reSearch pat u` is
`re.search(pat, url)`.  The crawler's `robots_cache` is dropped: the code
caches only successful robots fetches and the oracle is deterministic, so
caching is unobservable. -/
structure World where
  fetch : Url → Except String FetchOk
  robotsTxt : String → Option (Url → Bool)
  join : Url → String → Url
  libValid : Url → Bool
  reSearch : String → Url → Bool

/-- Substring test, Python's `needle in hay`. -/
def strContains (hay needle : String) : Bool :=
  (List.range (hay.length + 1)).any fun i => needle.data.isPrefixOf (hay.data.drop i)

/-- Python's `s.endswith(suffix)`. -/
def strEndsWith (s suf : String) : Bool :=
  suf.data.isSuffixOf s.data

/-- Static binary-extension deny list (crawler.py lines 109-110). -/
def skip_extensions : List String :=
  [".jpg", ".jpeg", ".png", ".gif", ".pdf", ".zip",
   ".exe", ".mp3", ".mp4", ".avi", ".css", ".js"]

/-- `Crawler.is_valid_url` (crawler.py lines 80-114): library validation,
scheme check, allowed-domain policy (substring match against configured
domains, else same-netloc as the base URL), exclusion patterns, and the
extension deny list on the lowercased path. -/
def is_valid_url (w : World) (cfg : CrawlerConfig) (url base : Url) : Bool :=
  w.libValid url &&
  (url.scheme == "http" || url.scheme == "https") &&
  (if cfg.allowed_domains.isEmpty
    then url.netloc == base.netloc
    else cfg.allowed_domains.any fun d => strContains url.netloc d) &&
  (cfg.excluded_patterns.all fun p => ! w.reSearch p url) &&
  (! skip_extensions.any fun ext => strEndsWith (strLower url.path) ext)

/-- `Crawler.check_robots_txt` (crawler.py lines 116-140): allow everything
when `respect_robots_txt` is off; otherwise consult the parsed robots.txt
for `scheme://netloc/robots.txt`, failing open when it is unavailable. -/
def check_robots_txt (w : World) (cfg : CrawlerConfig) (url : Url) : Bool :=
  if cfg.respect_robots_txt then
    match w.robotsTxt (url.scheme ++ "://" ++ url.netloc ++ "/robots.txt") with
    | some canFetch => canFetch url
    | none => true
  else true

/-! ## Fetching -/

/-- The dictionary `Crawler.fetch_page` returns (success: crawler.py lines
181-192; failure: lines 196-201).  `soup = some hrefs` models the `'soup'`
key being present (it always is on the success path); `error = some e`
models the `'error'` key.  `load_time`, `headers`, `html`,
`content_length`, `content_type` and `timestamp` are elided: no modelled
consumer reads them. -/
structure PageResult where
  url : Url
  status_code : Nat
  error : Option String := none
  soup : Option (List String) := none
  redirected_from : Option Url := none
deriving DecidableEq, Repr

/-- The crawler's session state: `visited_urls`, `failed_urls`, `results`
(crawler.py lines 31-33).  `fetchLog` is a proof artifact, not program
state: it records, in order, the normalized URL of every request actually
handed to the HTTP client, so that "no URL is fetched twice" is a statement
about this log. -/
structure CrawlState where
  visited_urls : List Url := []
  failed_urls : List Url := []
  results : List PageResult := []
  fetchLog : List Url := []
deriving Repr

/-- `Crawler.fetch_page` (crawler.py lines 142-201).  The normalized URL is
inserted into `visited_urls` before the robots.txt check; a robots-denied
URL yields `None` with no further bookkeeping; a fetch error adds the
normalized URL to `failed_urls` and returns an error dictionary with
`status_code = 0`. -/
def fetch_page (w : World) (cfg : CrawlerConfig) (st : CrawlState) (url : Url) :
    CrawlState × Option PageResult :=
  let n := normalize_url url
  if n ∈ st.visited_urls then (st, none)
  else
    let st1 := { st with visited_urls := st.visited_urls ++ [n] }
    if check_robots_txt w cfg url then
      let st2 := { st1 with fetchLog := st1.fetchLog ++ [n] }
      match w.fetch url with
      | .ok r =>
          (st2, some { url := r.finalUrl, status_code := r.status,
                       soup := some r.hrefs,
                       redirected_from := if r.finalUrl ≠ url then some url else none })
      | .error e =>
          ({ st2 with failed_urls := st2.failed_urls ++ [n] },
           some { url := url, status_code := 0, error := some e })
    else (st1, none)

/-- `Crawler.extract_links` (crawler.py lines 203-212): join every href
against the given base URL, keep the valid ones, deduplicate.  The source's
`list(set(links))` has arbitrary order; `List.dedup` fixes one order, and
no theorem below depends on it. -/
def extract_links (w : World) (cfg : CrawlerConfig) (base : Url) (hrefs : List String) :
    List Url :=
  (hrefs.filterMap fun h =>
    let absolute := w.join base h
    if is_valid_url w cfg absolute base then some absolute else none).dedup

/-! ## The crawl loop -/

/-- The mutable loop data of `Crawler.crawl_site`: accumulated results, the
frontier `to_visit`, and `depth_map` (an insertion-ordered association
list, like the Python dict). -/
structure Frontier where
  results : List PageResult
  to_visit : List Url
  depth_map : List (Url × Nat)
deriving Repr

/-- Enqueueing of one link (crawler.py lines 253-256): a link enters the
frontier only if it is in neither `visited_urls` nor `to_visit` nor
`depth_map`, and is then recorded at the given depth (the caller passes
`parent depth + 1`). -/
def enqueue_one (visited : List Url) (dep : Nat) (fr : Frontier) (link : Url) : Frontier :=
  if link ∉ visited ∧ link ∉ fr.to_visit then
    if fr.depth_map.lookup link = none then
      { fr with depth_map := fr.depth_map ++ [(link, dep)],
                to_visit := fr.to_visit ++ [link] }
    else fr
  else fr

/-- The `for link in links` enqueueing loop (crawler.py lines 252-256). -/
def enqueue_links (visited : List Url) (dep : Nat) : Frontier → List Url → Frontier
  | fr, [] => fr
  | fr, link :: links => enqueue_links visited dep (enqueue_one visited dep fr link) links

/-- Handling of one `(url, result)` pair of the batch (crawler.py lines
237-256, minus the `isinstance(result, Exception)` arm, which is
unreachable: `fetch_page` catches every exception itself).  Note the base
URL handed to `extract_links` is `pr.1`, the URL the batch requested — not
`r.url`, the post-redirect URL. -/
def process_result (w : World) (cfg : CrawlerConfig) (visited : List Url)
    (fr : Frontier) (pr : Url × Option PageResult) : Frontier :=
  match pr.2 with
  | none => fr
  | some r =>
      let fr1 := { fr with results := fr.results ++ [r] }
      match r.soup with
      | some hrefs =>
          if r.status_code = 200 then
            let d := (fr1.depth_map.lookup pr.1).getD 0
            if d < cfg.max_depth then
              enqueue_links visited (d + 1) fr1 (extract_links w cfg pr.1 hrefs)
            else fr1
          else fr1
      | none => fr1

/-- Sequential linearization of the `asyncio.gather` batch fetch
(crawler.py lines 234-235), producing the updated crawler state and the
`zip(batch, results)` pairs in batch order. -/
def fetch_batch (w : World) (cfg : CrawlerConfig) :
    CrawlState → List Url → CrawlState × List (Url × Option PageResult)
  | st, [] => (st, [])
  | st, u :: rest =>
      let p := fetch_page w cfg st u
      let q := fetch_batch w cfg p.1 rest
      (q.1, (u, p.2) :: q.2)

/-- Second phase of a loop iteration: fold `process_result` over the
fetched pairs. -/
def process_batch (w : World) (cfg : CrawlerConfig) (visited : List Url) :
    Frontier → List (Url × Option PageResult) → Frontier
  | fr, [] => fr
  | fr, p :: ps => process_batch w cfg visited (process_result w cfg visited fr p) ps

/-- The combined crawler state across loop iterations. -/
structure CrawlLoopState where
  st : CrawlState
  to_visit : List Url
  depth_map : List (Url × Nat)
deriving Repr

/-- One iteration of the `while` loop of `Crawler.crawl_site` (crawler.py
lines 227-256): slice off a batch, fetch it, then process results and
enqueue links. -/
def crawl_step (w : World) (cfg : CrawlerConfig) (maxPages : Nat)
    (s : CrawlLoopState) : CrawlLoopState :=
  let batch_size := min cfg.max_concurrent (min s.to_visit.length (maxPages - s.st.results.length))
  let batch := s.to_visit.take batch_size
  let rest := s.to_visit.drop batch_size
  let p := fetch_batch w cfg s.st batch
  let fr := process_batch w cfg p.1.visited_urls
      { results := p.1.results, to_visit := rest, depth_map := s.depth_map } p.2
  { st := { p.1 with results := fr.results },
    to_visit := fr.to_visit, depth_map := fr.depth_map }

/-- The `while to_visit and len(results) < max_pages` loop, with explicit
fuel (the loop body is productive but not structurally decreasing; every
theorem below holds for every fuel value). -/
def crawl_go (w : World) (cfg : CrawlerConfig) (maxPages : Nat) :
    Nat → CrawlLoopState → CrawlLoopState
  | 0, s => s
  | fuel + 1, s =>
      if s.to_visit ≠ [] ∧ s.st.results.length < maxPages then
        crawl_go w cfg maxPages fuel (crawl_step w cfg maxPages s)
      else s

/-- `Crawler.crawl_site` (crawler.py lines 214-258) from a fresh crawler:
frontier seeded with the start URL at depth 0. -/
def crawl_site (w : World) (cfg : CrawlerConfig) (start : Url) (fuel : Nat) :
    CrawlLoopState :=
  crawl_go w cfg cfg.max_pages fuel
    { st := {}, to_visit := [start], depth_map := [(start, 0)] }

/-- A predicate on crawler state survives a whole crawl if it is preserved
by each `fetch_page` and indifferent to the `results` accumulator. -/
def StateInv (w : World) (cfg : CrawlerConfig) (P : CrawlState → Prop) : Prop :=
  (∀ st u, P st → P (fetch_page w cfg st u).1) ∧
  (∀ st rs, P st → P { st with results := rs })

/-! ## Concrete crawl scenarios

Small deterministic worlds used to evaluate the crawler on concrete
inputs. -/

/-- `http://x/` — the seed URL of the concrete scenarios. -/
def urlA : Url := ⟨"http", "x", "/", "", "", ""⟩

/-- `http://x/private/page` — a URL under a robots-disallowed prefix. -/
def urlPriv : Url := ⟨"http", "x", "/private/page", "", "", ""⟩

/-- The default crawler configuration. -/
def cfg0 : CrawlerConfig := {}

/-- Scenario for robots.txt handling: the seed page links (via href `"p"`)
to `/private/page`, and the site's robots.txt disallows exactly that
path. -/
def wC2 : World where
  fetch := fun u =>
    if u = urlA then .ok ⟨urlA, 200, ["p"]⟩
    else .ok ⟨u, 200, []⟩
  robotsTxt := fun _ => some fun u => !(u.path == "/private/page")
  join := fun _ h => if h = "p" then urlPriv else urlA
  libValid := fun _ => true
  reSearch := fun _ _ => false

/-- A world whose robots.txt disallows every URL. -/
def wDenyAll : World where
  fetch := fun u => .ok ⟨u, 200, []⟩
  robotsTxt := fun _ => some fun _ => false
  join := fun _ _ => urlA
  libValid := fun _ => true
  reSearch := fun _ _ => false

/-- `http://y/` — the post-redirect (final) URL of the seed page in the
redirect scenario. -/
def urlB : Url := ⟨"http", "y", "/", "", "", ""⟩

/-- The URL obtained by resolving href `"h"` against the requested URL
`urlA`. -/
def fromA : Url := ⟨"http", "x", "/from-requested", "", "", ""⟩

/-- The URL obtained by resolving href `"h"` against the final URL
`urlB`. -/
def fromB : Url := ⟨"http", "x", "/from-final", "", "", ""⟩

/-- Scenario for redirect-base resolution: fetching the seed `urlA` follows
a redirect to `urlB` and yields one href `"h"`, whose resolution differs
depending on the base URL used. -/
def wC4 : World where
  fetch := fun u =>
    if u = urlA then .ok ⟨urlB, 200, ["h"]⟩
    else .ok ⟨u, 200, []⟩
  robotsTxt := fun _ => none
  join := fun base _ => if base = urlA then fromA else if base = urlB then fromB else urlA
  libValid := fun _ => true
  reSearch := fun _ _ => false

/-- An uppercase spelling of a URL, for the case-normalization claim. -/
def u10a : Url := ⟨"HTTP", "X", "/A/", "", "Q=1", "Frag"⟩

/-- The lowercase spelling of `u10a`. -/
def u10b : Url := ⟨"http", "x", "/a/", "", "q=1", "frag"⟩

/-! ## Orchestrator — `SEOAnalyzer` (src/tfq0seo/core/app.py)

`analyze_page` and `generate_site_report` operate on page dictionaries; the
analyzers are external collaborators and enter as oracles. -/

/-- Opaque stand-in for a parsed BeautifulSoup document: the orchestrator
only passes it along, never inspects it. -/
abbrev Soup := String

/-- An issue dictionary as produced by an analyzer.  `analyze_page` reads
only `issue.get('severity')`; the remaining payload (message, details) is
elided. -/
structure OIssue where
  severity : Option String
deriving DecidableEq, Repr

/-- What one analyzer returns: `{'score': ..., 'issues': [...], 'data':
{...}}`.  The `data` map is read only by `generate_recommendations`, which
is elided, so it is dropped here.  Scores are Python floats, modelled as
rationals. -/
structure AnalyzerResult where
  score : ℚ
  issues : List OIssue
deriving DecidableEq, Repr

/-- The five registered analyzer functions (app.py lines 17-23).  An
`Except.error` models the analyzer raising.  The per-call extras
(`target_keywords`, `headers`, `status_code`, `load_time`,
`content_length`, `broken_links`) vary only with data elided from the page
model, so they are absorbed into each oracle. -/
structure Analyzers where
  seo : Soup → String → Except String AnalyzerResult
  content : Soup → String → Except String AnalyzerResult
  technical : Soup → String → Except String AnalyzerResult
  performance : Soup → String → Except String AnalyzerResult
  links : Soup → String → Except String AnalyzerResult

/-- The slice of the crawler's page dictionary that `analyze_page` reads:
`url`, optional `status_code`, the `error` key (present or not), and the
`soup` key.  A missing or falsy soup is `none`. -/
structure PageData where
  url : String
  status_code : Option Nat := none
  error : Option String := none
  soup : Option Soup := none
deriving DecidableEq, Repr

/-- The result dictionary of `SEOAnalyzer.analyze_page`.  Every `Option`
field models a dictionary key that may be absent — in particular
`overall_score`: the early-return branches of `analyze_page` create no
`'overall_score'` key at all.  `issue_counts` is the
(critical, warning, notice) triple; `load_time`, `timestamp` and
`recommendations` are elided (no modelled consumer reads them). -/
structure PageAnalysis where
  url : String
  status_code : Nat
  error : Option String := none
  seo : Option AnalyzerResult := none
  content : Option AnalyzerResult := none
  technical : Option AnalyzerResult := none
  performance : Option AnalyzerResult := none
  links : Option AnalyzerResult := none
  overall_score : Option ℚ := none
  issues : Option (List OIssue) := none
  issue_counts : Option (Nat × Nat × Nat) := none
deriving DecidableEq, Repr

/-- The overall-score formula of app.py lines 103-110: fixed weights
25/25/20/20/10 percent over the five analyzer scores. -/
def overall_score_calc (s c t p l : ℚ) : ℚ :=
  s * 0.25 + c * 0.25 + t * 0.20 + p * 0.20 + l * 0.10

/-- The `issue_counts` dictionary of app.py lines 119-123. -/
def count_severity (issues : List OIssue) : Nat × Nat × Nat :=
  (issues.countP (fun i => i.severity == some "critical"),
   issues.countP (fun i => i.severity == some "warning"),
   issues.countP (fun i => i.severity == some "notice"))

/-- The `except` branch of `analyze_page` (app.py lines 128-131): on any
exception inside the single `try` block the page keeps whatever analyzer
results were already assigned, gets `error = "Analysis error: ..."`,
`overall_score = 0` and an empty issue list. -/
def analysis_error (base : PageAnalysis) (e : String) : PageAnalysis :=
  { base with error := some ("Analysis error: " ++ e),
              overall_score := some (0 : ℚ), issues := some [] }

/-- `SEOAnalyzer.analyze_page` (app.py lines 36-133).  Pages carrying an
`error` key, or lacking a (truthy) soup, return early with only `url`,
`error` and `status_code` set.  Otherwise the five analyzers run in a
fixed order inside one `try`: the first exception aborts the remaining
analyzers via `analysis_error`; if all succeed, the weighted overall score,
the concatenated issue list and the severity counts are recorded. -/
def analyze_page (A : Analyzers) (pd : PageData) : PageAnalysis :=
  match pd.error with
  | some e => { url := pd.url, error := some e, status_code := pd.status_code.getD 0 }
  | none =>
    match pd.soup with
    | none =>
        { url := pd.url, error := some "No content to analyze",
          status_code := pd.status_code.getD 0 }
    | some soup =>
        let base : PageAnalysis := { url := pd.url, status_code := pd.status_code.getD 200 }
        match A.seo soup pd.url with
        | .error e => analysis_error base e
        | .ok rSeo =>
          let base := { base with seo := some rSeo }
          match A.content soup pd.url with
          | .error e => analysis_error base e
          | .ok rContent =>
            let base := { base with content := some rContent }
            match A.technical soup pd.url with
            | .error e => analysis_error base e
            | .ok rTech =>
              let base := { base with technical := some rTech }
              match A.performance soup pd.url with
              | .error e => analysis_error base e
              | .ok rPerf =>
                let base := { base with performance := some rPerf }
                match A.links soup pd.url with
                | .error e => analysis_error base e
                | .ok rLinks =>
                  let allIssues := rSeo.issues ++ rContent.issues ++ rTech.issues ++
                    rPerf.issues ++ rLinks.issues
                  { base with
                    links := some rLinks
                    overall_score := some (overall_score_calc rSeo.score rContent.score
                      rTech.score rPerf.score rLinks.score)
                    issues := some allIssues
                    issue_counts := some (count_severity allIssues) }

/-- The slice of `SEOAnalyzer.generate_site_report`'s output the claims
read: the summary counts, the averaged overall score, and the per-category
average scores (`none` models a missing `category_scores` key: the code
writes a category only when at least one page contributed a score).
Issue aggregation, performance stats, recommendations and the pages
summary are elided. -/
structure SiteReport where
  total_pages : Nat
  successful_pages : Nat
  failed_pages : Nat
  overall_score : ℚ
  seo_avg : Option ℚ
  content_avg : Option ℚ
  technical_avg : Option ℚ
  performance_avg : Option ℚ
  links_avg : Option ℚ
deriving DecidableEq, Repr

/-- Average of the scores a category collected over the non-error pages
(app.py lines 290-293 and 315-318). -/
def category_average (pages : List PageAnalysis) (f : PageAnalysis → Option AnalyzerResult) :
    Option ℚ :=
  let scores := (pages.filter fun p => p.error.isNone).filterMap fun p => (f p).map (·.score)
  if scores.isEmpty then none else some (scores.sum / (scores.length : ℚ))

/-- `SEOAnalyzer.generate_site_report` (app.py lines 263-318, the modelled
slice).  Empty input returns the `{'error': ...}` dictionary, modelled as
`none`.  Pages with an `error` key go to the failed list and are skipped by
the score loops (the `continue`); every page counts toward `total_pages`.
The loops over pages are expressed as `filter`/`filterMap`, which compute
the same lists. -/
def generate_site_report (pages : List PageAnalysis) : Option SiteReport :=
  if pages.isEmpty then none
  else
    let successful := pages.filter fun p => p.error.isNone
    let failed := pages.filter fun p => p.error.isSome
    let total_score := (successful.map fun p => p.overall_score.getD 0).sum
    some
      { total_pages := pages.length
        successful_pages := successful.length
        failed_pages := failed.length
        overall_score := if successful.length = 0 then 0 else total_score / (successful.length : ℚ)
        seo_avg := category_average pages (·.seo)
        content_avg := category_average pages (·.content)
        technical_avg := category_average pages (·.technical)
        performance_avg := category_average pages (·.performance)
        links_avg := category_average pages (·.links) }

/-- A successful analyzer result used by the concrete scenarios. -/
def okRes : AnalyzerResult := ⟨80, [⟨some "warning"⟩]⟩

/-- Concrete analyzer set whose content analyzer raises `"boom"` while the
other four succeed. -/
def A1 : Analyzers where
  seo := fun _ _ => .ok okRes
  content := fun _ _ => .error "boom"
  technical := fun _ _ => .ok okRes
  performance := fun _ _ => .ok okRes
  links := fun _ _ => .ok okRes

/-- A fetched page with a (truthy) soup and no error. -/
def pd1 : PageData := { url := "http://x/", status_code := some 200, soup := some "doc" }

/-- A page whose fetch failed: the crawler's error dictionary
`{'url': ..., 'error': 'Timeout', 'status_code': 0}`. -/
def pdErr : PageData := { url := "http://x/err", status_code := some 0, error := some "Timeout" }

/-- A concrete successfully analyzed page. -/
def pgOk : PageAnalysis :=
  { url := "http://x/ok", status_code := 200, seo := some okRes, overall_score := some 80 }

/-- A concrete failed-page analysis (fetch error dictionary). -/
def pgErr : PageAnalysis := { url := "http://x/err", status_code := 0, error := some "Timeout" }

/-- The site report of `[pgOk]`. -/
def rOk : SiteReport := ⟨1, 1, 0, 80, some 80, none, none, none, none⟩

/-- The site report of `[pgOk, pgErr]`. -/
def rOk2 : SiteReport := ⟨2, 1, 1, 80, some 80, none, none, none, none⟩

/-! ## Issue aggregation —
`EnhancedReportGenerator._aggregate_similar_issues`
(src/tfq0seo/core/report_generator.py lines 143-176) -/

/-- An issue dictionary as seen by the aggregator: the optional `type` key
(the grouping key, defaulting to `'unknown'`), the optional `page_url`
stamped by `_extract_all_issues`, and the nested
`confidence.get('score', 0.5)` value.  The remaining payload (severity,
message, ...) is carried along unread and is elided. -/
structure RIssue where
  itype : Option String
  page_url : Option String
  confidence : Option ℚ
deriving DecidableEq, Repr

/-- `issue.get('type', 'unknown')` — the aggregation key. -/
def issue_key (i : RIssue) : String := i.itype.getD "unknown"

/-- Deduplication keeping the *first* occurrence of each element, in
order: the key iteration order of a Python dict / `defaultdict`. -/
def dedup_first {α : Type} [DecidableEq α] : List α → List α
  | [] => []
  | a :: l => a :: (dedup_first l).filter fun b => decide (b ≠ a)

/-- One output record of `_aggregate_similar_issues`: the first issue of
the group with — only when the group has at least two members — the
`occurrences`, `affected_pages` and `aggregate_confidence` keys added. -/
structure AggIssue where
  base : RIssue
  occurrences : Option Nat := none
  affected_pages : Option (List String) := none
  aggregate_confidence : Option ℚ := none
deriving DecidableEq, Repr

/-- Aggregation of one (non-empty) group (report_generator.py lines
155-174): a singleton group is passed through untouched; a larger group
becomes its first member plus `occurrences = len(group)`,
`affected_pages = list(set(non-empty page_urls))` (the arbitrary Python
set order is fixed as `List.dedup`; only its length is used below), and
the mean confidence.  The `[]` case is unreachable — every key names a
non-empty group. -/
def aggregate_group : List RIssue → Option AggIssue
  | [] => none
  | [i] => some { base := i }
  | i :: rest =>
      some { base := i
             occurrences := some (i :: rest).length
             affected_pages := some
               (((i :: rest).filterMap fun j => j.page_url).filter fun s => decide (s ≠ "")).dedup
             aggregate_confidence := some
               (((i :: rest).map fun j => j.confidence.getD (0.5 : ℚ)).sum /
                 ((i :: rest).length : ℚ)) }

/-- `_aggregate_similar_issues`: group the issues by `issue_key` (keys in
first-seen order, each group keeping input order) and aggregate each
group. -/
def aggregate_similar_issues (issues : List RIssue) : List AggIssue :=
  (dedup_first (issues.map issue_key)).filterMap fun k =>
    aggregate_group (issues.filter fun i => issue_key i == k)

/-- Two issues of the same type `"t"` on the same page `"A"`. -/
def j1 : RIssue := ⟨some "t", some "A", none⟩

/-- A second issue of type `"t"` on page `"A"`. -/
def j2 : RIssue := ⟨some "t", some "A", some (9 / 10 : ℚ)⟩

/-- An issue of type `"t"` on page `"B"`. -/
def j3 : RIssue := ⟨some "t", some "B", none⟩

/-! ## Cache — `CacheManager` (src/src/utils/cache_manager.py)

The memory-cache path of `set` / `_add_to_memory_cache` /
`_cleanup_cache` / `_cleanup_expired` / `get_stats`.  The file-cache side
(writes in `set`, reads in `get`) never influences
`stats['current_size']` and is elided; `enabled` is taken as true
(`set` returns immediately otherwise).  Timestamps are integers supplied
explicitly in place of `datetime.now()`. -/

/-- A cached value, reduced to what `_estimate_memory_usage` reads:
`len(json.dumps(data))` when the value is serializable, `none` when
serialization raises. -/
structure CacheVal where
  jsonLen : Option Nat
deriving DecidableEq, Repr

/-- Estimated byte size of one value (cache_manager.py lines 298-301):
twice the JSON length, or the fixed 1024-byte default. -/
def val_size (v : CacheVal) : Nat :=
  match v.jsonLen with
  | some n => 2 * n
  | none => 1024

/-- A memory-cache entry: the value and its expiration timestamp.
(`last_accessed` / `access_count` are touched only by `get`, which is not
modelled.) -/
structure CacheEntryM where
  data : CacheVal
  expiration : Int
deriving DecidableEq, Repr

/-- The configure()d limits (cache_manager.py lines 100-104):
`max_entries`, `max_memory` (bytes, `max_memory_mb * 1024 * 1024`) and the
entry lifetime in seconds. -/
structure CacheConfig where
  max_entries : Nat := 1000
  max_memory : Nat := 100 * 1024 * 1024
  expiration_seconds : Int := 3600
deriving Repr

/-- The cache's mutable state: the `OrderedDict` as an association list in
LRU order (head = least recently used), plus the statistics fields the
claims read (`stats.evictions`, `stats.size`, `stats.memory_usage`). -/
structure CacheMem where
  entries : List (String × CacheEntryM) := []
  evictions : Nat := 0
  size_stat : Nat := 0
  memory_stat : Nat := 0
deriving DecidableEq, Repr

/-- `_estimate_memory_usage` over the current entries. -/
def estimate_memory (entries : List (String × CacheEntryM)) : Nat :=
  (entries.map fun e => val_size e.2.data).sum

/-- The memory-cache half of `_cleanup_expired` (cache_manager.py lines
273-279): drop every entry with `now > expiration`, counting each as an
eviction. -/
def cleanup_expired (now : Int) (c : CacheMem) : CacheMem :=
  { c with
    entries := c.entries.filter fun e => decide (¬ now > e.2.expiration)
    evictions := c.evictions + (c.entries.filter fun e => decide (now > e.2.expiration)).length }

/-- The LRU eviction loop of `_cleanup_cache` (lines 257-263): while the
entry count exceeds `max_entries` or the estimated memory exceeds
`max_memory`, pop the least-recently-used entry (`popitem(last=False)`),
counting evictions; stop when the cache empties. -/
def evict_lru (cfg : CacheConfig) : List (String × CacheEntryM) → List (String × CacheEntryM) × Nat
  | [] => ([], 0)
  | e :: rest =>
      if cfg.max_entries < (e :: rest).length ∨ cfg.max_memory < estimate_memory (e :: rest) then
        let q := evict_lru cfg rest
        (q.1, q.2 + 1)
      else (e :: rest, 0)

/-- `_cleanup_cache` (lines 247-267): purge expired entries, then evict
LRU entries while over either limit, then refresh the size/memory
statistics. -/
def cleanup_cache (cfg : CacheConfig) (now : Int) (c : CacheMem) : CacheMem :=
  let c1 := cleanup_expired now c
  let q := evict_lru cfg c1.entries
  { entries := q.1
    evictions := c1.evictions + q.2
    size_stat := q.1.length
    memory_stat := estimate_memory q.1 }

/-- Removal of a key (the in-place overwrite half of
`self.memory_cache[key] = ...` followed by `move_to_end`). -/
def erase_key (entries : List (String × CacheEntryM)) (k : String) :
    List (String × CacheEntryM) :=
  entries.filter fun e => decide (e.1 ≠ k)

/-- `_add_to_memory_cache` (lines 222-245): when the entry count reaches
90 % of `max_entries` or the estimated memory reaches 90 % of
`max_memory` (`x ≥ 0.9 * m` is written integrally as `10 * x ≥ 9 * m`),
run `_cleanup_cache`; then insert the new entry at the most-recently-used
end (overwriting any previous binding of the key) and refresh the
statistics. -/
def add_to_memory_cache (cfg : CacheConfig) (now : Int) (c : CacheMem) (key : String)
    (v : CacheVal) (expiration : Int) : CacheMem :=
  let c1 :=
    if 10 * c.entries.length ≥ 9 * cfg.max_entries ∨
       10 * estimate_memory c.entries ≥ 9 * cfg.max_memory
    then cleanup_cache cfg now c
    else c
  let entries := erase_key c1.entries key ++ [(key, ⟨v, expiration⟩)]
  { c1 with entries := entries, size_stat := entries.length,
            memory_stat := estimate_memory entries }

/-- `CacheManager.set` (lines 192-220), memory-cache path: the entry
expires `expiration_seconds` after `now`.  (The file-cache write is
elided.) -/
def cache_set (cfg : CacheConfig) (now : Int) (c : CacheMem) (key : String) (v : CacheVal) :
    CacheMem :=
  add_to_memory_cache cfg now c key v (now + cfg.expiration_seconds)

/-- `get_stats()['current_size']` (line 322): the `stats.size` field. -/
def current_size (c : CacheMem) : Nat := c.size_stat

/-- The configuration of the repository's own cache test
(`tests/test_cache_manager.py`): `max_entries = 5`, `max_memory_mb = 1`,
`expiration = 60`. -/
def cfgTest : CacheConfig := { max_entries := 5, max_memory := 1024 * 1024,
                               expiration_seconds := 60 }

/-- A small serializable value (`'value_i'`: 9 JSON characters). -/
def vSmall : CacheVal := ⟨some 9⟩

/-- Insert a list of keys in order at time 0, starting from an empty
cache. -/
def cache_after (cfg : CacheConfig) (keys : List String) : CacheMem :=
  keys.foldl (fun c k => cache_set cfg 0 c k vSmall) {}

/-- The ten distinct keys the repository's `test_cache_size_limit`
inserts. -/
def tenKeys : List String :=
  ["key_0", "key_1", "key_2", "key_3", "key_4",
   "key_5", "key_6", "key_7", "key_8", "key_9"]

end Tfq0seo

namespace Tfq0seo

/-! ## Crawler state lemmas -/

/-- Case analysis on the state part of `fetch_page`: either the URL was
already visited (state unchanged), or its normalized form is appended to
`visited_urls` and — only when robots.txt allows the fetch — to the fetch
log, with `failed_urls` also extended exactly when the fetch errored. -/
theorem fetch_page_cases (w : World) (cfg : CrawlerConfig) (st : CrawlState) (u : Url) :
    (fetch_page w cfg st u).1 = st ∨
    (normalize_url u ∉ st.visited_urls ∧
      ((fetch_page w cfg st u).1 =
          { st with visited_urls := st.visited_urls ++ [normalize_url u] } ∨
       (check_robots_txt w cfg u = true ∧
        ((fetch_page w cfg st u).1 =
            { st with visited_urls := st.visited_urls ++ [normalize_url u],
                      fetchLog := st.fetchLog ++ [normalize_url u] } ∨
         (fetch_page w cfg st u).1 =
            { st with visited_urls := st.visited_urls ++ [normalize_url u],
                      fetchLog := st.fetchLog ++ [normalize_url u],
                      failed_urls := st.failed_urls ++ [normalize_url u] })))) := by
  unfold fetch_page
  dsimp only
  split
  · exact Or.inl rfl
  · rename_i h
    refine Or.inr ⟨h, ?_⟩
    split
    · rename_i hrob
      refine Or.inr ⟨hrob, ?_⟩
      split
      · exact Or.inl rfl
      · exact Or.inr rfl
    · exact Or.inl rfl

theorem fetch_batch_inv {w : World} {cfg : CrawlerConfig} {P : CrawlState → Prop}
    (hP : StateInv w cfg P) :
    ∀ batch st, P st → P (fetch_batch w cfg st batch).1 := by
  intro batch
  induction batch with
  | nil => intro st h; exact h
  | cons u rest ih =>
      intro st h
      simpa only [fetch_batch] using ih (fetch_page w cfg st u).1 (hP.1 st u h)

theorem crawl_step_inv {w : World} {cfg : CrawlerConfig} {P : CrawlState → Prop}
    (hP : StateInv w cfg P) (maxPages : Nat) (s : CrawlLoopState) (h : P s.st) :
    P (crawl_step w cfg maxPages s).st := by
  unfold crawl_step
  dsimp only
  exact hP.2 _ _ (fetch_batch_inv hP _ _ h)

theorem crawl_go_inv {w : World} {cfg : CrawlerConfig} {P : CrawlState → Prop}
    (hP : StateInv w cfg P) :
    ∀ fuel maxPages s, P s.st → P (crawl_go w cfg maxPages fuel s).st := by
  intro fuel
  induction fuel with
  | zero => intro _ _ h; exact h
  | succ n ih =>
      intro maxPages s h
      unfold crawl_go
      split
      · exact ih maxPages _ (crawl_step_inv hP maxPages s h)
      · exact h

/-- The fetch log stays duplicate-free and inside the visited set: a URL is
only handed to the HTTP client after its normalized form was found absent
from `visited_urls` and inserted there. -/
theorem fetch_page_log_inv (w : World) (cfg : CrawlerConfig) :
    StateInv w cfg fun st => st.fetchLog.Nodup ∧ ∀ x ∈ st.fetchLog, x ∈ st.visited_urls := by
  constructor
  · intro st u h
    have hsub : ∀ x ∈ st.fetchLog ++ [normalize_url u],
        x ∈ st.visited_urls ++ [normalize_url u] := by
      intro x hx
      rcases List.mem_append.1 hx with hx | hx
      · exact List.mem_append_left _ (h.2 x hx)
      · exact List.mem_append_right _ hx
    rcases fetch_page_cases w cfg st u with he | ⟨hnv, he | ⟨_, he | he⟩⟩ <;> rw [he]
    · exact h
    · exact ⟨h.1, fun x hx => List.mem_append_left _ (h.2 x hx)⟩
    · refine ⟨?_, hsub⟩
      have hnl : normalize_url u ∉ st.fetchLog := fun hlog => hnv (h.2 _ hlog)
      simp [List.nodup_append, h.1, hnl]
    · refine ⟨?_, hsub⟩
      have hnl : normalize_url u ∉ st.fetchLog := fun hlog => hnv (h.2 _ hlog)
      simp [List.nodup_append, h.1, hnl]
  · intro st rs h; exact h

/-- Across a whole crawl, the fetch log is duplicate-free and contained in
the visited set. -/
theorem crawl_site_log_wf (w : World) (cfg : CrawlerConfig) (start : Url) (fuel : Nat) :
    (crawl_site w cfg start fuel).st.fetchLog.Nodup ∧
    ∀ x ∈ (crawl_site w cfg start fuel).st.fetchLog,
      x ∈ (crawl_site w cfg start fuel).st.visited_urls :=
  crawl_go_inv (fetch_page_log_inv w cfg) fuel cfg.max_pages _
    ⟨List.nodup_nil, by intro x hx; exact absurd hx (List.not_mem_nil x)⟩

end Tfq0seo

namespace Tfq0seo

/-! ## Frontier lemmas -/

theorem enqueue_one_to_visit {visited : List Url} {dep : Nat} {fr : Frontier} {link x : Url}
    (hx : x ∈ (enqueue_one visited dep fr link).to_visit) :
    x ∈ fr.to_visit ∨ x = link := by
  unfold enqueue_one at hx
  split at hx
  · split at hx
    · rcases List.mem_append.1 hx with h | h
      · exact Or.inl h
      · exact Or.inr (List.mem_singleton.1 h)
    · exact Or.inl hx
  · exact Or.inl hx

theorem enqueue_one_depth_map {visited : List Url} {dep : Nat} {fr : Frontier} {link : Url}
    {p : Url × Nat} (hp : p ∈ (enqueue_one visited dep fr link).depth_map) :
    p ∈ fr.depth_map ∨ p = (link, dep) := by
  unfold enqueue_one at hp
  split at hp
  · split at hp
    · rcases List.mem_append.1 hp with h | h
      · exact Or.inl h
      · exact Or.inr (List.mem_singleton.1 h)
    · exact Or.inl hp
  · exact Or.inl hp

theorem enqueue_links_to_visit {visited : List Url} {dep : Nat} :
    ∀ {links : List Url} {fr : Frontier} {x : Url},
      x ∈ (enqueue_links visited dep fr links).to_visit →
      x ∈ fr.to_visit ∨ x ∈ links := by
  intro links
  induction links with
  | nil => intro fr x hx; exact Or.inl hx
  | cons l ls ih =>
      intro fr x hx
      rw [enqueue_links] at hx
      rcases ih hx with h | h
      · rcases enqueue_one_to_visit h with h' | h'
        · exact Or.inl h'
        · exact Or.inr (h' ▸ List.mem_cons_self l ls)
      · exact Or.inr (List.mem_cons_of_mem l h)

theorem enqueue_links_depth_map {visited : List Url} {dep : Nat} :
    ∀ {links : List Url} {fr : Frontier} {p : Url × Nat},
      p ∈ (enqueue_links visited dep fr links).depth_map →
      p ∈ fr.depth_map ∨ p.2 = dep := by
  intro links
  induction links with
  | nil => intro fr p hp; exact Or.inl hp
  | cons l ls ih =>
      intro fr p hp
      rw [enqueue_links] at hp
      rcases ih hp with h | h
      · rcases enqueue_one_depth_map h with h' | h'
        · exact Or.inl h'
        · exact Or.inr (by rw [h'])
      · exact Or.inr h

/-- New frontier entries produced by processing one batch pair `(u, some r)`
come from `extract_links` taken against `u` — the URL the batch requested,
not the final (post-redirect) URL `r.url`. -/
theorem process_result_to_visit {w : World} {cfg : CrawlerConfig} {visited : List Url}
    {fr : Frontier} {u : Url} {r : PageResult} {x : Url}
    (hx : x ∈ (process_result w cfg visited fr (u, some r)).to_visit) :
    x ∈ fr.to_visit ∨ ∃ hrefs, r.soup = some hrefs ∧ x ∈ extract_links w cfg u hrefs := by
  unfold process_result at hx
  dsimp only at hx
  split at hx
  · rename_i hrefs hsoup
    split at hx
    · split at hx
      · rcases enqueue_links_to_visit hx with h | h
        · exact Or.inl h
        · exact Or.inr ⟨hrefs, hsoup, h⟩
      · exact Or.inl hx
    · exact Or.inl hx
  · exact Or.inl hx

theorem process_result_depth_map {w : World} {cfg : CrawlerConfig} {visited : List Url}
    {fr : Frontier} {pr : Url × Option PageResult} {p : Url × Nat}
    (hp : p ∈ (process_result w cfg visited fr pr).depth_map)
    (hdm : ∀ q ∈ fr.depth_map, q.2 ≤ cfg.max_depth) :
    p.2 ≤ cfg.max_depth := by
  unfold process_result at hp
  split at hp
  · exact hdm p hp
  · dsimp only at hp
    split at hp
    · split at hp
      · split at hp
        · rename_i hlt
          rcases enqueue_links_depth_map hp with h | h
          · exact hdm p h
          · omega
        · exact hdm p hp
      · exact hdm p hp
    · exact hdm p hp

theorem process_batch_depth_map {w : World} {cfg : CrawlerConfig} {visited : List Url} :
    ∀ {prs : List (Url × Option PageResult)} {fr : Frontier} {p : Url × Nat},
      p ∈ (process_batch w cfg visited fr prs).depth_map →
      (∀ q ∈ fr.depth_map, q.2 ≤ cfg.max_depth) →
      p.2 ≤ cfg.max_depth := by
  intro prs
  induction prs with
  | nil => intro fr p hp hdm; exact hdm p hp
  | cons pr rest ih =>
      intro fr p hp hdm
      rw [process_batch] at hp
      exact ih hp fun q hq => process_result_depth_map hq hdm

theorem crawl_go_depth_map {w : World} {cfg : CrawlerConfig} :
    ∀ {fuel maxPages : Nat} {s : CrawlLoopState} {p : Url × Nat},
      p ∈ (crawl_go w cfg maxPages fuel s).depth_map →
      (∀ q ∈ s.depth_map, q.2 ≤ cfg.max_depth) →
      p.2 ≤ cfg.max_depth := by
  intro fuel
  induction fuel with
  | zero => intro _ s p hp hdm; exact hdm p hp
  | succ n ih =>
      intro maxPages s p hp hdm
      rw [crawl_go] at hp
      split at hp
      · refine ih hp ?_
        intro q hq
        unfold crawl_step at hq
        dsimp only at hq
        exact process_batch_depth_map hq hdm
      · exact hdm p hp

end Tfq0seo

namespace Tfq0seo

/-- If robots.txt denies every URL normalizing to `n`, then `n` never
enters `failed_urls` or the fetch log: both are extended only after the
robots check passed for the concrete URL being fetched. -/
theorem fetch_page_denied_inv (w : World) (cfg : CrawlerConfig) (n : Url)
    (hden : ∀ u, normalize_url u = n → check_robots_txt w cfg u = false) :
    StateInv w cfg fun st => n ∉ st.failed_urls ∧ n ∉ st.fetchLog := by
  constructor
  · intro st u h
    rcases fetch_page_cases w cfg st u with he | ⟨_, he | ⟨hrob, he | he⟩⟩ <;> rw [he]
    · exact h
    · exact h
    · refine ⟨h.1, fun hx => ?_⟩
      rcases List.mem_append.1 hx with hx | hx
      · exact h.2 hx
      · rw [hden u (List.mem_singleton.1 hx).symm] at hrob
        exact Bool.noConfusion hrob
    · constructor
      · intro hx
        rcases List.mem_append.1 hx with hx | hx
        · exact h.1 hx
        · rw [hden u (List.mem_singleton.1 hx).symm] at hrob
          exact Bool.noConfusion hrob
      · intro hx
        rcases List.mem_append.1 hx with hx | hx
        · exact h.2 hx
        · rw [hden u (List.mem_singleton.1 hx).symm] at hrob
          exact Bool.noConfusion hrob
  · intro st rs h; exact h

end Tfq0seo

namespace Tfq0seo

/-! ## Claim theorems — crawler -/

/-- **C7.** For every crawl session — any world, configuration, seed URL
and fuel — no URL is fetched twice: the log of normalized URLs actually
handed to the HTTP client is duplicate-free.  `fetch_page` inserts the
normalized URL into `visited_urls` before fetching and refuses URLs already
there, so a normalized URL that was fetched (or enqueued and then fetched)
is never fetched again, including when rediscovered through a link
cycle. -/
theorem crawl_site_no_refetch (w : World) (cfg : CrawlerConfig) (start : Url) (fuel : Nat) :
    (crawl_site w cfg start fuel).st.fetchLog.Nodup :=
  (crawl_site_log_wf w cfg start fuel).1

/-- **C8.** Depth bookkeeping of `crawl_site`: (1) a link enqueued while
processing a parent is recorded at exactly the depth the parent's
processing passes — `process_result` passes `parent depth + 1` and only
under the guard `parent depth < max_depth` (unfolding `process_result`);
(2) consequently every depth recorded in the crawl's depth map is at most
`max_depth`, so no fetched page exceeds `max_depth`. -/
theorem crawl_site_depth_bounded :
    (∀ (visited : List Url) (dep : Nat) (fr : Frontier) (link : Url) (p : Url × Nat),
        p ∈ (enqueue_one visited dep fr link).depth_map →
        p ∈ fr.depth_map ∨ p = (link, dep)) ∧
    (∀ (w : World) (cfg : CrawlerConfig) (start : Url) (fuel : Nat) (u : Url) (d : Nat),
        (u, d) ∈ (crawl_site w cfg start fuel).depth_map → d ≤ cfg.max_depth) := by
  constructor
  · intro visited dep fr link p hp
    exact enqueue_one_depth_map hp
  · intro w cfg start fuel u d hp
    unfold crawl_site at hp
    refine crawl_go_depth_map (p := (u, d)) hp ?_
    intro q hq
    rw [List.mem_singleton] at hq
    rw [hq]
    exact Nat.zero_le _

/-- Witness: in the concrete scenario `wC2`, the discovered page
`/private/page` is recorded at depth `1 ≤ max_depth`, and a concrete
enqueue lands in the depth map at the passed depth. -/
theorem crawl_site_depth_bounded_witness :
    ((urlPriv, 1) ∈ (crawl_site wC2 cfg0 urlA 3).depth_map ∧ 1 ≤ cfg0.max_depth) ∧
    ((fromA, 1) ∈ (enqueue_one [] 1 ⟨[], [], []⟩ fromA).depth_map ∧
      ((fromA, 1) ∈ (⟨[], [], []⟩ : Frontier).depth_map ∨ ((fromA, 1) : Url × Nat) = (fromA, 1))) :=
  ⟨⟨by decide, crawl_site_depth_bounded.2 wC2 cfg0 urlA 3 urlPriv 1 (by decide)⟩,
   ⟨by decide, crawl_site_depth_bounded.1 [] 1 ⟨[], [], []⟩ fromA (fromA, 1) (by decide)⟩⟩

/-- **C2, counterexample.** In the scenario `wC2` the site's robots.txt
disallows `/private/page` (the robots check on it is `false`), the seed
page links to it, and after the crawl the disallowed URL nevertheless
appears in `visited_urls` — `fetch_page` adds the normalized URL to the
visited set *before* the robots.txt check.  This refutes "never appears in
the visited set". -/
theorem robots_disallowed_in_visited_cex :
    check_robots_txt wC2 cfg0 urlPriv = false ∧
    urlPriv ∈ (crawl_site wC2 cfg0 urlA 3).st.visited_urls := by decide

/-- **C2 (amended).** A URL whose every case-variant is disallowed by
robots.txt never appears in `failed_urls` and is never fetched (it does,
however, appear in `visited_urls` once dequeued, as the counterexample
shows): `failed_urls` and the fetch log are extended only after the robots
check passes. -/
theorem crawl_site_denied_not_failed (w : World) (cfg : CrawlerConfig) (start : Url)
    (fuel : Nat) (n : Url)
    (hden : ∀ u, normalize_url u = n → check_robots_txt w cfg u = false) :
    n ∉ (crawl_site w cfg start fuel).st.failed_urls ∧
    n ∉ (crawl_site w cfg start fuel).st.fetchLog :=
  crawl_go_inv (fetch_page_denied_inv w cfg n hden) fuel cfg.max_pages _
    ⟨List.not_mem_nil n, List.not_mem_nil n⟩

/-- Witness: under a robots.txt that denies everything, `/private/page`
ends in neither `failed_urls` nor the fetch log. -/
theorem crawl_site_denied_not_failed_witness :
    urlPriv ∉ (crawl_site wDenyAll cfg0 urlA 3).st.failed_urls ∧
    urlPriv ∉ (crawl_site wDenyAll cfg0 urlA 3).st.fetchLog :=
  crawl_site_denied_not_failed wDenyAll cfg0 urlA 3 urlPriv fun _ _ => rfl

/-- **C4, counterexample.** In the scenario `wC4`, fetching the seed
`urlA` follows a redirect to the final URL `urlB` and the page holds one
href; resolving that href against the requested URL gives `fromA` while
resolving it against the final URL gives `fromB ≠ fromA`.  After the crawl,
`fromA` is enqueued (depth 1) and `fromB` is nowhere in the depth map: the
code passes the *requested* URL, not the final URL, to `extract_links`
(crawler.py line 251 uses `url`, not `result['url']`). -/
theorem links_resolved_against_final_cex :
    wC4.fetch urlA = .ok ⟨urlB, 200, ["h"]⟩ ∧
    urlB ≠ urlA ∧
    wC4.join urlA "h" = fromA ∧
    wC4.join urlB "h" = fromB ∧
    fromA ≠ fromB ∧
    (crawl_site wC4 cfg0 urlA 4).depth_map.lookup fromA = some 1 ∧
    (crawl_site wC4 cfg0 urlA 4).depth_map.lookup fromB = none :=
  ⟨rfl, by decide, rfl, rfl, by decide, by decide, by decide⟩

/-- **C4 (amended).** Links of a fetched 2xx page are resolved into
absolute URLs against the *originally requested* URL of the page (the
batch URL), not the final post-redirect URL: every URL newly enqueued while
processing a batch pair comes from `extract_links` based at the requested
URL. -/
theorem crawl_links_use_requested_base (w : World) (cfg : CrawlerConfig)
    (visited : List Url) (fr : Frontier) (u : Url) (r : PageResult) (x : Url)
    (hx : x ∈ (process_result w cfg visited fr (u, some r)).to_visit) :
    x ∈ fr.to_visit ∨ ∃ hrefs, r.soup = some hrefs ∧ x ∈ extract_links w cfg u hrefs :=
  process_result_to_visit hx

/-- Witness: processing the concrete redirect scenario enqueues `fromA`,
which indeed comes from `extract_links` based at the requested URL. -/
theorem crawl_links_use_requested_base_witness :
    fromA ∈ (process_result wC4 cfg0 [] ⟨[], [], [(urlA, 0)]⟩
        (urlA, some ⟨urlB, 200, none, some ["h"], some urlA⟩)).to_visit ∧
    (fromA ∈ (⟨[], [], [(urlA, 0)]⟩ : Frontier).to_visit ∨
      ∃ hrefs, (⟨urlB, 200, none, some ["h"], some urlA⟩ : PageResult).soup = some hrefs ∧
        fromA ∈ extract_links wC4 cfg0 urlA hrefs) :=
  ⟨by decide,
   crawl_links_use_requested_base wC4 cfg0 [] ⟨[], [], [(urlA, 0)]⟩ urlA
     ⟨urlB, 200, none, some ["h"], some urlA⟩ fromA (by decide)⟩

/-- **C10.** `normalize_url` lowercases the whole URL — scheme, host, path
and query alike — before comparison: two URLs that differ only in letter
case normalize identically, and since the fetch log holds normalized URLs
without duplicates, at most one of the pair is fetched in any session. -/
theorem normalize_url_case_insensitive (u1 u2 : Url) (h : lowerUrl u1 = lowerUrl u2) :
    normalize_url u1 = normalize_url u2 ∧
    ∀ (w : World) (cfg : CrawlerConfig) (start : Url) (fuel : Nat),
      List.count (normalize_url u1) (crawl_site w cfg start fuel).st.fetchLog ≤ 1 ∧
      List.count (normalize_url u2) (crawl_site w cfg start fuel).st.fetchLog ≤ 1 := by
  have hn : normalize_url u1 = normalize_url u2 := by
    unfold normalize_url
    rw [h]
  refine ⟨hn, fun w cfg start fuel => ?_⟩
  have hnd := (crawl_site_log_wf w cfg start fuel).1
  exact ⟨List.nodup_iff_count_le_one.1 hnd _, List.nodup_iff_count_le_one.1 hnd _⟩

/-- Witness: `HTTP://X/A/?Q=1` and `http://x/a/?q=1` (differing only in
case, also in path and query) normalize identically and are fetched at
most once in the concrete session. -/
theorem normalize_url_case_insensitive_witness :
    normalize_url u10a = normalize_url u10b ∧
    List.count (normalize_url u10a) (crawl_site wC2 cfg0 urlA 3).st.fetchLog ≤ 1 :=
  ⟨(normalize_url_case_insensitive u10a u10b (by decide)).1,
   ((normalize_url_case_insensitive u10a u10b (by decide)).2 wC2 cfg0 urlA 3).1⟩

end Tfq0seo

namespace Tfq0seo

/-! ## Claim theorems — orchestrator -/

/-- **C1, counterexample.** With the concrete analyzer set `A1` (content
analyzer raises `"boom"`, all others succeed) on a normal page, the result
has `error` set, `overall_score = 0` for the whole page, an *empty* issue
list — no synthetic "analyzer failed" issue — and no results at all for
the technical/performance/links analyzers: they never ran.  This refutes
"only that analyzer's score becomes 0, a synthetic issue is recorded, and
the remaining analyzers still run": the single `try` block of
`analyze_page` (app.py lines 67-131) aborts at the first analyzer
exception. -/
theorem analyzer_exception_not_isolated_cex :
    (analyze_page A1 pd1).error = some "Analysis error: boom" ∧
    (analyze_page A1 pd1).overall_score = some 0 ∧
    (analyze_page A1 pd1).issues = some [] ∧
    (analyze_page A1 pd1).seo = some okRes ∧
    (analyze_page A1 pd1).technical = none ∧
    (analyze_page A1 pd1).performance = none ∧
    (analyze_page A1 pd1).links = none := by decide

/-- **C1 (amended).** An analyzer exception is caught once per page, not
per analyzer: if the seo analyzer succeeds and the content analyzer
raises, the page's analysis keeps the seo result, records
`error = "Analysis error: ..."`, sets the *page* score to 0 and the issue
list to empty (no synthetic per-analyzer issue), and the remaining
analyzers (technical, performance, links) never run — their keys are
absent. -/
theorem analyzer_exception_caught_per_page (A : Analyzers) (pd : PageData) (s : Soup)
    (r1 : AnalyzerResult) (e : String) (hpe : pd.error = none) (hps : pd.soup = some s)
    (h1 : A.seo s pd.url = .ok r1) (h2 : A.content s pd.url = .error e) :
    analyze_page A pd =
      { url := pd.url, status_code := pd.status_code.getD 200,
        error := some ("Analysis error: " ++ e), seo := some r1,
        overall_score := some 0, issues := some [] } := by
  unfold analyze_page
  rw [hpe, hps]
  dsimp only
  rw [h1]
  dsimp only
  rw [h2]
  rfl

/-- Witness for the per-page exception behaviour on `A1` and `pd1`. -/
theorem analyzer_exception_caught_per_page_witness :
    analyze_page A1 pd1 =
      { url := pd1.url, status_code := pd1.status_code.getD 200,
        error := some ("Analysis error: " ++ "boom"), seo := some okRes,
        overall_score := some 0, issues := some [] } :=
  analyzer_exception_caught_per_page A1 pd1 "doc" okRes "boom" rfl rfl rfl rfl

/-- **C5, counterexample.** For a page whose fetch result has `error` set,
`analyze_page` returns the early dictionary `{url, error, status_code}` —
it has *no* `overall_score` key at all (modelled `none`), rather than
`compositeScore = 0` as claimed. -/
theorem error_page_no_score_key_cex :
    (analyze_page A1 pdErr).error = some "Timeout" ∧
    (analyze_page A1 pdErr).overall_score = none ∧
    (analyze_page A1 pdErr).overall_score ≠ some 0 := by decide

/-- **C5 (amended).** Pages with a fetch error bypass all analyzers: the
analysis is exactly `{url, error, status_code}` with no `overall_score`
key (consumers read it as 0 through `.get('overall_score', 0)`).  In the
site report, appending such a page to any non-empty page list leaves every
per-category average, the successful count and the averaged overall score
unchanged, while the total page count and the failed count grow by one. -/
theorem error_pages_bypass_analyzers :
    (∀ (A : Analyzers) (pd : PageData) (e : String), pd.error = some e →
        analyze_page A pd =
          { url := pd.url, error := some e, status_code := pd.status_code.getD 0 }) ∧
    (∀ (pages : List PageAnalysis) (p : PageAnalysis) (r r2 : SiteReport),
        p.error.isSome →
        generate_site_report pages = some r →
        generate_site_report (pages ++ [p]) = some r2 →
        r2.total_pages = pages.length + 1 ∧
        r2.failed_pages = r.failed_pages + 1 ∧
        r2.successful_pages = r.successful_pages ∧
        r2.overall_score = r.overall_score ∧
        r2.seo_avg = r.seo_avg ∧ r2.content_avg = r.content_avg ∧
        r2.technical_avg = r.technical_avg ∧ r2.performance_avg = r.performance_avg ∧
        r2.links_avg = r.links_avg) := by
  constructor
  · intro A pd e he
    unfold analyze_page
    rw [he]
  · intro pages p r r2 hp hr hr2
    obtain ⟨e, he⟩ := Option.isSome_iff_exists.1 hp
    have hfN : ((pages ++ [p]).filter fun q => q.error.isNone) =
        pages.filter fun q => q.error.isNone := by
      rw [List.filter_append]
      simp [List.filter, he]
    have hfS : ((pages ++ [p]).filter fun q => q.error.isSome) =
        (pages.filter fun q => q.error.isSome) ++ [p] := by
      rw [List.filter_append]
      simp [List.filter, he]
    have hcat : ∀ f, category_average (pages ++ [p]) f = category_average pages f := by
      intro f
      unfold category_average
      rw [hfN]
    unfold generate_site_report at hr hr2
    split at hr
    · exact absurd hr (by simp)
    · rename_i hne
      have hne2 : ¬ (pages ++ [p]).isEmpty = true := by
        simp only [List.isEmpty_iff] at hne ⊢
        simp [hne]
      rw [if_neg hne2] at hr2
      obtain rfl : _ = r := Option.some.inj hr
      obtain rfl : _ = r2 := Option.some.inj hr2
      refine ⟨by simp, by simp [hfS], by simp [hfN], ?_, hcat _, hcat _, hcat _, hcat _, hcat _⟩
      simp only [hfN]

/-- Witness for the error-page behaviour: a concrete error page and the
concrete one-good-one-failed report pair. -/
theorem error_pages_bypass_analyzers_witness :
    (analyze_page A1 pdErr =
      { url := pdErr.url, error := some "Timeout", status_code := pdErr.status_code.getD 0 }) ∧
    (rOk2.total_pages = [pgOk].length + 1 ∧
      rOk2.failed_pages = rOk.failed_pages + 1 ∧
      rOk2.successful_pages = rOk.successful_pages ∧
      rOk2.overall_score = rOk.overall_score ∧
      rOk2.seo_avg = rOk.seo_avg ∧ rOk2.content_avg = rOk.content_avg ∧
      rOk2.technical_avg = rOk.technical_avg ∧ rOk2.performance_avg = rOk.performance_avg ∧
      rOk2.links_avg = rOk.links_avg) :=
  ⟨error_pages_bypass_analyzers.1 A1 pdErr "Timeout" rfl,
   error_pages_bypass_analyzers.2 [pgOk] pgErr rOk rOk2 (by decide)
     (by
       unfold generate_site_report category_average
       norm_num [pgOk, rOk, okRes, List.filter, List.filterMap])
     (by
       unfold generate_site_report category_average
       norm_num [pgOk, pgErr, rOk2, okRes, List.filter, List.filterMap])⟩

/-- **C9.** The hard-coded analyzer weights 0.25/0.25/0.20/0.20/0.10 sum
to 1, and for any five per-analyzer scores in [0, 100] the page's overall
score `Σ weight_i × score_i` lies in [0, 100]. -/
theorem composite_score_bounds :
    ((0.25 : ℚ) + 0.25 + 0.20 + 0.20 + 0.10 = 1) ∧
    ∀ s c t p l : ℚ,
      0 ≤ s → s ≤ 100 → 0 ≤ c → c ≤ 100 → 0 ≤ t → t ≤ 100 →
      0 ≤ p → p ≤ 100 → 0 ≤ l → l ≤ 100 →
      0 ≤ overall_score_calc s c t p l ∧ overall_score_calc s c t p l ≤ 100 := by
  refine ⟨by norm_num, ?_⟩
  intro s c t p l hs0 hs1 hc0 hc1 ht0 ht1 hp0 hp1 hl0 hl1
  unfold overall_score_calc
  constructor <;> nlinarith

/-- Witness: the overall score of the concrete scores (100, 80, 60, 40,
20) lies in [0, 100]. -/
theorem composite_score_bounds_witness :
    0 ≤ overall_score_calc 100 80 60 40 20 ∧ overall_score_calc 100 80 60 40 20 ≤ 100 :=
  composite_score_bounds.2 100 80 60 40 20 (by norm_num) (by norm_num) (by norm_num)
    (by norm_num) (by norm_num) (by norm_num) (by norm_num) (by norm_num)
    (by norm_num) (by norm_num)

end Tfq0seo

namespace Tfq0seo

/-! ## Claim theorems — issue aggregation and cache -/

/-- Lists whose elements are all `k` deduplicate to `[k]`. -/
theorem dedup_first_const {α : Type} [DecidableEq α] :
    ∀ (l : List α) (k : α), l ≠ [] → (∀ x ∈ l, x = k) → dedup_first l = [k] := by
  intro l
  induction l with
  | nil => intro k h _; exact absurd rfl h
  | cons a tl ih =>
      intro k _ hall
      have ha : a = k := hall a (List.mem_cons_self a tl)
      cases tl with
      | nil => simp [dedup_first, ha]
      | cons b tl' =>
          have htl : dedup_first (b :: tl') = [k] :=
            ih k (by simp) fun x hx => hall x (List.mem_cons_of_mem a hx)
          subst ha
          rw [show dedup_first (a :: b :: tl')
              = a :: (dedup_first (b :: tl')).filter (fun x => decide (x ≠ a)) from rfl, htl]
          simp

/-- If `map f` yields `map some urls`, then `filterMap f` yields `urls`. -/
theorem filterMap_of_map_some {α β : Type} (f : α → Option β) :
    ∀ (l : List α) (urls : List β), l.map f = urls.map some → l.filterMap f = urls := by
  intro l
  induction l with
  | nil =>
      intro urls h
      cases urls with
      | nil => rfl
      | cons u us => simp at h
  | cons a tl ih =>
      intro urls h
      cases urls with
      | nil => simp at h
      | cons u us =>
          simp only [List.map_cons, List.cons.injEq] at h
          simp [List.filterMap_cons, h.1, ih us h.2]

/-- **C6, counterexample.** Two issues of one type originating from a
single page (`P = 1`) aggregate to one record with `occurrences = 2` — the
number of issue *instances* — while the deduplicated `affected_pages` list
has length 1.  So `occurrenceCount = P` fails (2 ≠ 1) and
`occurrenceCount == len(affectedURLs)` fails (2 ≠ 1).  Moreover a
singleton group is passed through with *no* `occurrences` key at all. -/
theorem aggregated_occurrences_not_pages_cex :
    (aggregate_similar_issues [j1, j2]).length = 1 ∧
    ((aggregate_similar_issues [j1, j2]).map fun a => a.occurrences) = [some 2] ∧
    ((aggregate_similar_issues [j1, j2]).map fun a => a.affected_pages) = [some ["A"]] ∧
    ((aggregate_similar_issues [j1]).map fun a => a.occurrences) = [none] := by decide

/-- **C6 (amended).** For issues sharing one type, `occurrences` counts
issue instances: if at least two issues all carry key `k` and each carries
a non-empty `page_url`, with the page URLs pairwise distinct (one issue
per page, so `P = issues.length` pages), aggregation yields exactly one
record with `occurrences = issues.length` and
`affected_pages = urls` of that same length — in this one-issue-per-page
case `occurrenceCount = P = len(affectedURLs)` does hold. -/
theorem aggregation_one_issue_per_page (issues : List RIssue) (k : String) (urls : List String)
    (h2 : 2 ≤ issues.length)
    (hk : ∀ i ∈ issues, issue_key i = k)
    (hurls : (issues.map fun j => j.page_url) = urls.map some)
    (hne : ∀ s ∈ urls, s ≠ "")
    (hnd : urls.Nodup) :
    ∃ a, aggregate_similar_issues issues = [a] ∧
      a.occurrences = some issues.length ∧
      a.affected_pages = some urls ∧
      urls.length = issues.length := by
  have hlen : issues.length = urls.length := by
    have := congrArg List.length hurls
    simpa using this
  have hkeys : dedup_first (issues.map issue_key) = [k] := by
    refine dedup_first_const _ k ?_ ?_
    · intro h
      rw [List.map_eq_nil_iff] at h
      rw [h] at h2
      exact absurd h2 (by simp)
    · intro x hx
      obtain ⟨i, hi, rfl⟩ := List.mem_map.1 hx
      exact hk i hi
  have hfilter : (issues.filter fun i => issue_key i == k) = issues :=
    List.filter_eq_self.mpr fun i hi => by simp [hk i hi]
  have hfm : (issues.filterMap fun j => j.page_url) = urls :=
    filterMap_of_map_some _ issues urls hurls
  have hnef : urls.filter (fun s => decide (s ≠ "")) = urls :=
    List.filter_eq_self.mpr fun s hs => by simpa using hne s hs
  have hdd : urls.dedup = urls := List.dedup_eq_self.mpr hnd
  rcases issues with _ | ⟨i1, tl⟩
  · exact absurd h2 (by simp)
  rcases tl with _ | ⟨i2, rest⟩
  · exact absurd h2 (by simp)
  refine ⟨{ base := i1
            occurrences := some (i1 :: i2 :: rest).length
            affected_pages := some urls
            aggregate_confidence := some
              ((((i1 :: i2 :: rest)).map fun j => j.confidence.getD (0.5 : ℚ)).sum /
                (((i1 :: i2 :: rest)).length : ℚ)) }, ?_, rfl, rfl, hlen.symm⟩
  unfold aggregate_similar_issues
  rw [hkeys]
  simp only [List.filterMap_cons, List.filterMap_nil, hfilter]
  rw [show aggregate_group (i1 :: i2 :: rest) =
      some { base := i1
             occurrences := some (i1 :: i2 :: rest).length
             affected_pages := some
               ((((i1 :: i2 :: rest).filterMap fun j => j.page_url).filter
                 fun s => decide (s ≠ "")).dedup)
             aggregate_confidence := some
               ((((i1 :: i2 :: rest)).map fun j => j.confidence.getD (0.5 : ℚ)).sum /
                 (((i1 :: i2 :: rest)).length : ℚ)) } from rfl]
  rw [hfm, hnef, hdd]

/-- Witness: one issue of type `"t"` on each of the distinct pages `"A"`
and `"B"` aggregates to a single record with `occurrences = 2` and
`affected_pages = ["A", "B"]` of length 2. -/
theorem aggregation_one_issue_per_page_witness :
    ∃ a, aggregate_similar_issues [j1, j3] = [a] ∧
      a.occurrences = some ([j1, j3] : List RIssue).length ∧
      a.affected_pages = some ["A", "B"] ∧
      (["A", "B"] : List String).length = ([j1, j3] : List RIssue).length :=
  aggregation_one_issue_per_page [j1, j3] "t" ["A", "B"] (by decide) (by decide)
    (by decide) (by decide) (by decide)

/-- **C3 (code bug).** The repository's own test
(`tests/test_cache_manager.py::test_cache_size_limit`) configures
`max_entries = 5`, inserts the ten distinct keys `key_0 .. key_9`, and
asserts `stats['current_size'] <= 5`.  Evaluating the modelled code at
exactly that input leaves `current_size = 6 = max_entries + 1`:
`_add_to_memory_cache` cleans up *before* inserting and `_cleanup_cache`
evicts only while the count strictly exceeds `max_entries`, so each insert
ends at `max_entries + 1` entries.  The claim (and the test) say the count
settles at ≤ `max_entries`; the code violates it. -/
theorem cache_size_exceeds_max_entries :
    current_size (cache_after cfgTest tenKeys) = 6 ∧
    cfgTest.max_entries < current_size (cache_after cfgTest tenKeys) := by decide

end Tfq0seo
